import Mathlib

/-
Verification of the WebSocket session/connection subsystem of the
recipe-generation backend.

The model is a shallow embedding of:
  * `app/core/websocket_manager.py` — `WebSocketConnectionManager`
    (`connect`, `disconnect`, `send_personal_message`, `is_session_connected`),
  * the handshake portion of the `/recipe-gen` endpoint in
    `app/api/v1/endpoints/ws.py` (`recipe_gen`, `send_session_history`,
    `send_response`, `send_error_message`),
  * the worker-channel loop body of `/recipe-gen/celery` (`recipe_gen_celery`),
  * session/history operations of
    `app/services/mongodb_recipe_generation_service.py`
    (`create_session`, `get_session`, `add_message_to_history`,
    `get_session_messages`, `delete_session`).

Python dictionaries are modelled as association lists with unique keys
(`alookup` / `aset` / `aerase`), Python sets as duplicate-free lists
(`sadd` / `sdiscard`); iteration order of a Python set is unspecified, and
none of the verified properties depend on the order the model fixes.
WebSocket handles are abstract `Nat` tokens; a delivery-failure oracle
`fails : Nat → Bool` says which socket handles raise on `send_json`.
`uuid.uuid4()` outputs are passed in as parameters, with freshness stated
as a hypothesis where it matters.
-/

namespace RecipeWS

/-! ## Association-list model of Python dict, and list model of Python set -/

def alookup {β : Type} (k : String) : List (String × β) → Option β
  | [] => none
  | p :: rest => if p.1 = k then some p.2 else alookup k rest

/-- Python `d[k] = v`: replace the binding if the key is present, else append. -/
def aset {β : Type} (k : String) (v : β) : List (String × β) → List (String × β)
  | [] => [(k, v)]
  | p :: rest => if p.1 = k then (k, v) :: rest else p :: aset k v rest

/-- Python `del d[k]` for a dict (unique keys): drop the first binding of `k`. -/
def aerase {β : Type} (k : String) : List (String × β) → List (String × β)
  | [] => []
  | p :: rest => if p.1 = k then rest else p :: aerase k rest

def keys {β : Type} (l : List (String × β)) : List String := l.map Prod.fst

/-- Python `s.add(x)` on a set modelled as a duplicate-free list. -/
def sadd (x : String) (s : List String) : List String :=
  if x ∈ s then s else s ++ [x]

/-- Python `s.discard(x)`. -/
def sdiscard (x : String) (s : List String) : List String :=
  s.filter (fun y => y ≠ x)

/-! ## `WebSocketConnectionManager` (app/core/websocket_manager.py) -/

structure Registry where
  active_connections : List (String × Nat)
  session_connections : List (String × List String)
deriving DecidableEq, Repr

def emptyRegistry : Registry := ⟨[], []⟩

def acKeys (r : Registry) : List String := keys r.active_connections

/-- `self.session_connections.get(session_id, set())`. -/
def sset (r : Registry) (sid : String) : List String :=
  (alookup sid r.session_connections).getD []

/-- `WebSocketConnectionManager.connect` (the `connection_id` produced by
`uuid.uuid4()` is the parameter `cid`; `websocket.accept()` is transport-level
and stateless for the registry). -/
def connect (r : Registry) (sock : Nat) (sid : String) (cid : String) : Registry :=
  let ac := aset cid sock r.active_connections
  let sc :=
    match alookup sid r.session_connections with
    | none => aset sid (sadd cid []) r.session_connections
    | some s => aset sid (sadd cid s) r.session_connections
  ⟨ac, sc⟩

/-- `WebSocketConnectionManager.disconnect`. -/
def disconnect (r : Registry) (cid : String) (sid : String) : Registry :=
  let ac :=
    if (alookup cid r.active_connections).isSome then
      aerase cid r.active_connections
    else r.active_connections
  let sc :=
    match alookup sid r.session_connections with
    | none => r.session_connections
    | some s =>
      let s' := sdiscard cid s
      if s' = [] then aerase sid r.session_connections
      else aset sid s' r.session_connections
  ⟨ac, sc⟩

/-- One iteration of the `for conn_id in connection_ids` loop of
`send_personal_message`: accumulator is (delivered so far, marked dead so far). -/
def sendStep (r : Registry) (fails : Nat → Bool) (acc : List String × List String)
    (cid : String) : List String × List String :=
  match alookup cid r.active_connections with
  | none => acc
  | some ws => if fails ws then (acc.1, acc.2 ++ [cid]) else (acc.1 ++ [cid], acc.2)

structure SendOut where
  registry : Registry
  delivered : List String
  evicted : List String
  ok : Bool
deriving DecidableEq, Repr

/-- A connection id whose socket is present and delivers successfully. -/
def dOk (r : Registry) (fails : Nat → Bool) (c : String) : Bool :=
  match alookup c r.active_connections with
  | none => false
  | some ws => !fails ws

/-- A connection id whose socket is present and raises on delivery. -/
def dFail (r : Registry) (fails : Nat → Bool) (c : String) : Bool :=
  match alookup c r.active_connections with
  | none => false
  | some ws => fails ws

/-- `WebSocketConnectionManager.send_personal_message`: attempt delivery to
every connection of the session, collect the connections whose send raised,
clean them up via `disconnect`, and return `len(connection_ids) > 0`.
In Python, `connection_ids` is the stored set object itself (aliased, not a
copy): each `disconnect` in the cleanup loop discards one marked id from that
same object, so by the time `len(connection_ids) > 0` is evaluated the set
holds only the connections that were not marked dead — `remaining` below. -/
def send_personal_message (r : Registry) (fails : Nat → Bool) (sid : String) : SendOut :=
  let connection_ids := sset r sid
  let dd := connection_ids.foldl (sendStep r fails) ([], [])
  let r' := dd.2.foldl (fun a c => disconnect a c sid) r
  let remaining := connection_ids.filter (fun c => !(dd.2.contains c))
  ⟨r', dd.1, dd.2, !remaining.isEmpty⟩

/-- `WebSocketConnectionManager.is_session_connected`. -/
def is_session_connected (r : Registry) (sid : String) : Bool :=
  match alookup sid r.session_connections with
  | none => false
  | some s => !s.isEmpty

/-! ## Registry well-formedness and the registration invariant -/

/-- States reachable through Python dict/set semantics: unique dict keys,
duplicate-free sets, and (maintained by `disconnect`) no empty session set. -/
def Wf (r : Registry) : Prop :=
  (keys r.active_connections).Nodup ∧
  (keys r.session_connections).Nodup ∧
  (∀ p ∈ r.session_connections, p.2.Nodup) ∧
  (∀ p ∈ r.session_connections, p.2 ≠ [])

/-- The registration invariant of the spec: every registered connection id lies
in exactly one session's connection set, and every member of a session set is a
registered connection id. -/
@[reducible] def ExactlyOnce (r : Registry) : Prop :=
  (∀ cid ∈ acKeys r,
    r.session_connections.countP (fun p => decide (cid ∈ p.2)) = 1) ∧
  (∀ p ∈ r.session_connections, ∀ cid ∈ p.2, cid ∈ acKeys r)

inductive Op where
  | conn (sock : Nat) (sid : String) (cid : String)
  | disc (cid : String) (sid : String)
deriving DecidableEq, Repr

def applyOp (r : Registry) : Op → Registry
  | .conn sock sid cid => connect r sock sid cid
  | .disc cid sid => disconnect r cid sid

def runOps (r : Registry) (ops : List Op) : Registry := ops.foldl applyOp r

/-- Admissible operation: a `conn` uses a fresh (uuid4) connection id; a `disc`
naming a currently registered connection id supplies the session id it is
registered under (which is what every call site in the repository does). -/
def okOp (r : Registry) : Op → Bool
  | .conn _ _ cid =>
      decide (cid ∉ acKeys r) &&
      r.session_connections.all (fun p => decide (cid ∉ p.2))
  | .disc cid sid =>
      decide (cid ∉ acKeys r) ||
      r.session_connections.all (fun p => decide (cid ∉ p.2) || decide (p.1 = sid))

def goodFrom (r : Registry) : List Op → Bool
  | [] => true
  | op :: rest => okOp r op && goodFrom (applyOp r op) rest

/-! ## World state shared by the endpoint handlers -/

/-- Message types appearing in the verified paths. -/
inductive MType where
  | connectionEstablished
  | sessionHistory
  | systemResponse
  | taskCompleted
  | taskFailed
  | allTasksCompleted
  | errorMsg
  | other (s : String)
deriving DecidableEq, Repr

/-- The mutable state the endpoint handlers touch: the shared registry
singleton `ws_manager`, the Mongo `sessions` collection (as the list of
existing session ids), the Mongo `session_history` collection (session id ↦
ordered message-type log), and the list of enqueued generation tasks (session
ids, in enqueue order). -/
structure World where
  registry : Registry
  sessions : List String
  histories : List (String × List MType)
  enqueued : List String
deriving DecidableEq, Repr

/-- Observable events of one handler run, in program order.  `sentHistory` is a
direct `websocket.send_json` to the single connecting socket; `broadcast` is a
`ws_manager.send_personal_message` fan-out to the whole session. -/
inductive Ev where
  | closed (code : Nat) (reason : String)
  | sentHistory (sid : String) (msgs : List MType)
  | broadcast (sid : String) (t : MType)
  | histAppend (sid : String) (t : MType)
  | enqueue (sid : String)
  | deleteSession (sid : String)
deriving DecidableEq, Repr

def isSentHistory : Ev → Bool
  | Ev.sentHistory _ _ => true
  | _ => false

/-- `MongoDBRecipeGenerationService.get_session_messages` (`[]` when the
history document is absent). -/
def histOf (w : World) (sid : String) : List MType :=
  (alookup sid w.histories).getD []

/-- `MongoDBRecipeGenerationService.add_message_to_history` (upsert + push). -/
def addHist (w : World) (sid : String) (t : MType) : World :=
  { w with histories := aset sid (histOf w sid ++ [t]) w.histories }

/-- `MongoDBRecipeGenerationService.delete_session`: deletes the session
document only (the history delete is commented out in the source). -/
def delete_session (w : World) (sid : String) : World :=
  { w with sessions := w.sessions.filter (fun s => s ≠ sid) }

/-- `send_session_history` in ws.py: reads the session's messages and sends
them as one `session_history` frame to this socket only — but only
`if messages:`, i.e. nothing at all is sent when the history is empty. -/
def send_session_history (w : World) (sid : String) : List Ev :=
  if histOf w sid = [] then [] else [Ev.sentHistory sid (histOf w sid)]

/-- `send_response` in ws.py: fan-out the typed message; only when the fan-out
reports success is a `system_response` entry appended to the history. -/
def send_response (w : World) (fails : Nat → Bool) (sid : String) (t : MType) :
    World × List Ev :=
  let s := send_personal_message w.registry fails sid
  let w1 := { w with registry := s.registry }
  if s.ok then
    (addHist w1 sid MType.systemResponse,
     [Ev.broadcast sid t, Ev.histAppend sid MType.systemResponse])
  else (w1, [Ev.broadcast sid t])

/-- `send_error_message` in ws.py delegates to `send_response` with type
`error`. -/
def send_error_message (w : World) (fails : Nat → Bool) (sid : String) :
    World × List Ev :=
  send_response w fails sid MType.errorMsg

/-- Python truthiness test `if session_id and session_id != "":` on the
optional query parameter. -/
def sessionProvided : Option String → Bool
  | none => false
  | some s => s != ""

structure HsOut where
  world : World
  trace : List Ev
  ok : Bool
  sid : String
deriving DecidableEq, Repr

/-- The handshake portion of the `/recipe-gen` endpoint (`recipe_gen`,
ws.py lines 139–248): token check, session resolution/creation, registration,
history replay, connection_established broadcast, history logging, and — for
fresh sessions only — the task enqueue.  `auth` models
`deps.get_current_user` (None = authentication raises), `freshSid` the uuid4
session id `create_session` would mint, `freshConn` the uuid4 connection id
minted by `ws_manager.connect`, `sock` this connection's socket handle, and
`fails` the delivery-failure oracle used by the fan-outs.  The
`recipe_params` / `url` query parameters are parsed before this point but
touch no modelled state.  On the close paths nothing was registered, so the
`finally` cleanup block is a no-op. -/
def recipe_gen_handshake (w : World) (auth : String → Option Nat)
    (fails : Nat → Bool) (token : Option String) (session_id : Option String)
    (freshSid freshConn : String) (sock : Nat) : HsOut :=
  match token with
  | none => ⟨w, [Ev.closed 1008 "Authentication token is required"], false, ""⟩
  | some t =>
    match auth t with
    | none => ⟨w, [Ev.closed 1008 "Invalid authentication token"], false, ""⟩
    | some _uid =>
      if sessionProvided session_id then
        let sid := session_id.getD ""
        if sid ∈ w.sessions then
          let r1 := connect w.registry sock sid freshConn
          let hEvs := send_session_history w sid
          let s1 := send_personal_message r1 fails sid
          let w1 := addHist { w with registry := s1.registry } sid MType.systemResponse
          ⟨w1,
           hEvs ++ [Ev.broadcast sid MType.connectionEstablished,
                    Ev.histAppend sid MType.systemResponse],
           true, sid⟩
        else ⟨w, [Ev.closed 1008 "Invalid session ID"], false, ""⟩
      else
        let sid := freshSid
        let w0 := { w with sessions := w.sessions ++ [sid],
                           histories := aset sid [] w.histories }
        let r1 := connect w0.registry sock sid freshConn
        let hEvs := send_session_history w0 sid
        let s1 := send_personal_message r1 fails sid
        let w1 := addHist { w0 with registry := s1.registry } sid MType.systemResponse
        let w2 := { w1 with enqueued := w1.enqueued ++ [sid] }
        let w3 := addHist w2 sid MType.systemResponse
        ⟨w3,
         hEvs ++ [Ev.broadcast sid MType.connectionEstablished,
                  Ev.histAppend sid MType.systemResponse,
                  Ev.enqueue sid,
                  Ev.histAppend sid MType.systemResponse],
         true, sid⟩

/-- Iterated reconnects with an existing session id: each element carries that
attempt's delivery oracle, fresh connection id and socket handle. -/
def reconnectAll (auth : String → Option Nat) (t sid : String) (w : World) :
    List ((Nat → Bool) × String × Nat) → World
  | [] => w
  | (f, c, s) :: rest =>
      reconnectAll auth t sid
        (recipe_gen_handshake w auth f (some t) (some sid) "" c s).world rest

/-! ## Worker-channel loop body (`recipe_gen_celery`) and client-frame loop -/

structure WOut where
  world : World
  trace : List Ev
  earlyReturn : Bool
deriving DecidableEq, Repr

/-- One iteration of the `recipe_gen_celery` receive loop on a successfully
parsed worker message (ws.py lines 332–447): log it to history, broadcast it
(the boolean result of the fan-out is ignored), then for `task_completed` —
when the payload carries results — persist the recipe artifacts (`persistOk`
abstracts the SQL `try` block; its relational writes are outside this model);
on success append/broadcast `all_tasks_completed` and delete the session at
line 435 and again at line 443, on persistence error send an `error` message,
delete the session at line 440 and return; with no results delete at
line 443; for `task_failed` delete at line 447. -/
def handleWorker (w : World) (fails : Nat → Bool) (sid : String) (mtype : MType)
    (hasResults : Bool) (persistOk : Bool) : WOut :=
  let w1 := addHist w sid mtype
  let s1 := send_personal_message w1.registry fails sid
  let w2 := { w1 with registry := s1.registry }
  let t0 := [Ev.histAppend sid mtype, Ev.broadcast sid mtype]
  if mtype = MType.taskCompleted then
    if hasResults then
      if persistOk then
        let w3 := addHist w2 sid MType.allTasksCompleted
        let s2 := send_personal_message w3.registry fails sid
        let w4 := { w3 with registry := s2.registry }
        let w5 := delete_session w4 sid
        let w6 := delete_session w5 sid
        ⟨w6,
         t0 ++ [Ev.histAppend sid MType.allTasksCompleted,
                Ev.broadcast sid MType.allTasksCompleted,
                Ev.deleteSession sid, Ev.deleteSession sid],
         false⟩
      else
        let p := send_error_message w2 fails sid
        let w3 := delete_session p.1 sid
        ⟨w3, t0 ++ p.2 ++ [Ev.deleteSession sid], true⟩
    else
      let w3 := delete_session w2 sid
      ⟨w3, t0 ++ [Ev.deleteSession sid], false⟩
  else if mtype = MType.taskFailed then
    let w3 := delete_session w2 sid
    ⟨w3, t0 ++ [Ev.deleteSession sid], false⟩
  else ⟨w2, t0, false⟩

/-- A client frame as the `recipe_gen` streaming loop classifies it: valid
JSON that also validates as a `WebSocketMessage`, invalid JSON
(`json.JSONDecodeError`), or JSON that fails envelope validation (the generic
`except Exception` branch). -/
inductive Frame where
  | valid
  | invalidJson
  | invalidEnvelope
deriving DecidableEq, Repr

/-- One iteration of the `recipe_gen` streaming loop on a received text frame
(ws.py lines 251–267): a valid frame is parsed and logged only; a malformed
frame triggers `send_error_message` to the session.  Either way the loop
continues (`Bool` result; `WebSocketDisconnect` is raised by the transport,
not by a decoded frame, and is handled outside this body). -/
def handleClientFrame (w : World) (fails : Nat → Bool) (sid : String)
    (fr : Frame) : World × List Ev × Bool :=
  match fr with
  | Frame.valid => (w, [], true)
  | _ =>
    let p := send_error_message w fails sid
    (p.1, p.2, true)

/-! ## Lemmas about the dict / set model -/

theorem keys_nil {β : Type} : keys ([] : List (String × β)) = [] := rfl

theorem keys_cons {β : Type} (p : String × β) (l : List (String × β)) :
    keys (p :: l) = p.1 :: keys l := rfl

theorem mem_keys_of_mem {β : Type} {p : String × β} {l : List (String × β)}
    (h : p ∈ l) : p.1 ∈ keys l := List.mem_map_of_mem Prod.fst h

theorem alookup_aset_self {β : Type} (k : String) (v : β) (l : List (String × β)) :
    alookup k (aset k v l) = some v := by
  induction l with
  | nil => simp [aset, alookup]
  | cons p rest ih =>
    by_cases h : p.1 = k
    · simp [aset, h, alookup]
    · simp [aset, h, alookup, ih]

theorem alookup_aset_ne {β : Type} {k k' : String} (v : β) (l : List (String × β))
    (h : k' ≠ k) : alookup k' (aset k v l) = alookup k' l := by
  induction l with
  | nil => simp [aset, alookup, Ne.symm h]
  | cons p rest ih =>
    by_cases hp : p.1 = k
    · simp only [aset, if_pos hp, alookup]
      rw [if_neg (show ¬ ((k, v).1 = k') by simpa using Ne.symm h),
          if_neg (show ¬ (p.1 = k') by rw [hp]; exact Ne.symm h)]
    · simp only [aset, if_neg hp, alookup]
      by_cases hk : p.1 = k'
      · rw [if_pos hk, if_pos hk]
      · rw [if_neg hk, if_neg hk, ih]

theorem alookup_isSome_iff {β : Type} (k : String) (l : List (String × β)) :
    (alookup k l).isSome ↔ k ∈ keys l := by
  induction l with
  | nil => simp [alookup, keys]
  | cons p rest ih =>
    rw [keys_cons]
    by_cases h : p.1 = k
    · simp only [alookup, if_pos h, Option.isSome_some]
      exact ⟨fun _ => List.mem_cons.mpr (Or.inl h.symm), fun _ => trivial⟩
    · simp only [alookup, if_neg h]
      rw [ih]
      constructor
      · intro hm
        exact List.mem_cons_of_mem _ hm
      · intro hm
        rcases List.mem_cons.mp hm with he | hm'
        · exact absurd he.symm h
        · exact hm'

theorem alookup_eq_none_iff {β : Type} (k : String) (l : List (String × β)) :
    alookup k l = none ↔ k ∉ keys l := by
  rw [← alookup_isSome_iff]
  cases alookup k l <;> simp

theorem alookup_mem {β : Type} {k : String} {v : β} {l : List (String × β)}
    (h : alookup k l = some v) : (k, v) ∈ l := by
  induction l with
  | nil => simp [alookup] at h
  | cons p rest ih =>
    by_cases hp : p.1 = k
    · simp only [alookup, if_pos hp] at h
      have hpv : p = (k, v) := by
        obtain ⟨a, b⟩ := p
        simp at hp h ⊢
        exact ⟨hp, h⟩
      rw [← hpv]
      exact List.mem_cons_self p rest
    · simp only [alookup, if_neg hp] at h
      exact List.mem_cons_of_mem _ (ih h)

theorem alookup_of_mem_nodup {β : Type} {p : String × β} {l : List (String × β)}
    (hn : (keys l).Nodup) (hp : p ∈ l) : alookup p.1 l = some p.2 := by
  induction l with
  | nil => simp at hp
  | cons q rest ih =>
    rw [keys_cons] at hn
    have hn1 : q.1 ∉ keys rest := (List.nodup_cons.mp hn).1
    have hn2 : (keys rest).Nodup := (List.nodup_cons.mp hn).2
    rcases List.mem_cons.mp hp with hq | hq
    · subst hq
      simp [alookup]
    · have hne : ¬ (q.1 = p.1) := by
        intro he
        apply hn1
        rw [he]
        exact mem_keys_of_mem hq
      simp only [alookup, if_neg hne]
      exact ih hn2 hq

theorem mem_keys_aset {β : Type} (k k' : String) (v : β) (l : List (String × β)) :
    k' ∈ keys (aset k v l) ↔ k' ∈ keys l ∨ k' = k := by
  induction l with
  | nil => simp [aset, keys]
  | cons p rest ih =>
    by_cases hp : p.1 = k
    · simp only [aset, if_pos hp, keys_cons, List.mem_cons]
      rw [hp]
      tauto
    · simp only [aset, if_neg hp, keys_cons, List.mem_cons]
      rw [ih]
      tauto

theorem keys_aset_present {β : Type} {k : String} (v : β) {l : List (String × β)}
    (h : (alookup k l).isSome) : keys (aset k v l) = keys l := by
  induction l with
  | nil => simp [alookup] at h
  | cons p rest ih =>
    by_cases hp : p.1 = k
    · simp only [aset, if_pos hp, keys_cons]
      rw [hp]
    · simp only [alookup, if_neg hp] at h
      simp only [aset, if_neg hp, keys_cons]
      rw [ih h]

theorem keys_aset_absent {β : Type} {k : String} (v : β) {l : List (String × β)}
    (h : alookup k l = none) : keys (aset k v l) = keys l ++ [k] := by
  induction l with
  | nil => simp [aset, keys]
  | cons p rest ih =>
    by_cases hp : p.1 = k
    · simp [alookup, hp] at h
    · simp only [alookup, if_neg hp] at h
      simp only [aset, if_neg hp, keys_cons]
      rw [ih h, List.cons_append]

theorem mem_aset {β : Type} {p : String × β} {k : String} {v : β}
    {l : List (String × β)} (h : p ∈ aset k v l) : p = (k, v) ∨ p ∈ l := by
  induction l with
  | nil =>
    simp [aset] at h
    exact Or.inl h
  | cons q rest ih =>
    by_cases hq : q.1 = k
    · simp only [aset, if_pos hq] at h
      rcases List.mem_cons.mp h with he | hm
      · exact Or.inl he
      · exact Or.inr (List.mem_cons_of_mem _ hm)
    · simp only [aset, if_neg hq] at h
      rcases List.mem_cons.mp h with he | hm
      · exact Or.inr (List.mem_cons.mpr (Or.inl he))
      · rcases ih hm with h' | h'
        · exact Or.inl h'
        · exact Or.inr (List.mem_cons_of_mem _ h')

theorem mem_aset_key_eq {β : Type} {p : String × β} {k : String} {v : β}
    {l : List (String × β)} (hn : (keys l).Nodup) (h : p ∈ aset k v l)
    (hk : p.1 = k) : p = (k, v) := by
  induction l with
  | nil => simpa [aset] using h
  | cons q rest ih =>
    rw [keys_cons] at hn
    have hn1 : q.1 ∉ keys rest := (List.nodup_cons.mp hn).1
    have hn2 : (keys rest).Nodup := (List.nodup_cons.mp hn).2
    by_cases hq : q.1 = k
    · simp only [aset, if_pos hq] at h
      rcases List.mem_cons.mp h with he | hm
      · exact he
      · exfalso
        apply hn1
        rw [hq, ← hk]
        exact mem_keys_of_mem hm
    · simp only [aset, if_neg hq] at h
      rcases List.mem_cons.mp h with he | hm
      · exfalso
        apply hq
        rw [← he]
        exact hk
      · exact ih hn2 hm

theorem aset_same {β : Type} {k : String} {v : β} {l : List (String × β)}
    (h : alookup k l = some v) : aset k v l = l := by
  induction l with
  | nil => simp [alookup] at h
  | cons q rest ih =>
    obtain ⟨a, b⟩ := q
    by_cases hq : a = k
    · subst hq
      simp [alookup] at h
      subst h
      simp [aset]
    · simp only [alookup, if_neg (by simpa using hq)] at h
      simp only [aset, if_neg (by simpa using hq)]
      rw [ih h]

theorem aerase_sublist {β : Type} (k : String) (l : List (String × β)) :
    (aerase k l).Sublist l := by
  induction l with
  | nil => simp [aerase]
  | cons p rest ih =>
    by_cases hp : p.1 = k
    · simp only [aerase, if_pos hp]
      exact List.Sublist.cons p (List.Sublist.refl rest)
    · simp only [aerase, if_neg hp]
      exact List.Sublist.cons₂ p ih

theorem mem_aerase {β : Type} {p : String × β} {k : String} {l : List (String × β)}
    (h : p ∈ aerase k l) : p ∈ l := (aerase_sublist k l).mem h

theorem keys_aerase_sublist {β : Type} (k : String) (l : List (String × β)) :
    (keys (aerase k l)).Sublist (keys l) := (aerase_sublist k l).map Prod.fst

theorem alookup_aerase_ne {β : Type} {k k' : String} (l : List (String × β))
    (h : k' ≠ k) : alookup k' (aerase k l) = alookup k' l := by
  induction l with
  | nil => simp [aerase]
  | cons p rest ih =>
    by_cases hp : p.1 = k
    · simp only [aerase, if_pos hp, alookup]
      rw [if_neg (by rw [hp]; exact Ne.symm h)]
    · simp only [aerase, if_neg hp, alookup]
      by_cases hk : p.1 = k'
      · rw [if_pos hk, if_pos hk]
      · rw [if_neg hk, if_neg hk, ih]

theorem mem_keys_aerase {β : Type} {k k' : String} {l : List (String × β)}
    (hn : (keys l).Nodup) : k' ∈ keys (aerase k l) ↔ k' ∈ keys l ∧ k' ≠ k := by
  induction l with
  | nil => simp [aerase, keys]
  | cons p rest ih =>
    rw [keys_cons] at hn
    have hn1 : p.1 ∉ keys rest := (List.nodup_cons.mp hn).1
    have hn2 : (keys rest).Nodup := (List.nodup_cons.mp hn).2
    by_cases hp : p.1 = k
    · simp only [aerase, if_pos hp, keys_cons]
      constructor
      · intro hmem
        refine ⟨List.mem_cons_of_mem _ hmem, ?_⟩
        intro he
        apply hn1
        rw [hp, ← he]
        exact hmem
      · rintro ⟨hmem, hne⟩
        rcases List.mem_cons.mp hmem with he | hm
        · exact absurd (he.trans hp) hne
        · exact hm
    · simp only [aerase, if_neg hp, keys_cons]
      constructor
      · intro hmem
        rcases List.mem_cons.mp hmem with he | hm
        · refine ⟨List.mem_cons.mpr (Or.inl he), ?_⟩
          intro hk
          apply hp
          rw [← he]
          exact hk
        · have h' := (ih hn2).mp hm
          exact ⟨List.mem_cons.mpr (Or.inr h'.1), h'.2⟩
      · rintro ⟨hmem, hne⟩
        rcases List.mem_cons.mp hmem with he | hm
        · exact List.mem_cons.mpr (Or.inl he)
        · exact List.mem_cons.mpr (Or.inr ((ih hn2).mpr ⟨hm, hne⟩))

theorem alookup_aerase_self {β : Type} {k : String} {l : List (String × β)}
    (hn : (keys l).Nodup) : alookup k (aerase k l) = none := by
  rw [alookup_eq_none_iff]
  intro h
  have hk := @mem_keys_aerase β k k l hn
  exact ((hk.mp h).2) rfl

theorem countP_aset_present {β : Type} (q : String × β → Bool) {k : String}
    (v : β) {s : β} {l : List (String × β)} (h : alookup k l = some s) :
    (aset k v l).countP q + (if q (k, s) then 1 else 0) =
      l.countP q + (if q (k, v) then 1 else 0) := by
  induction l with
  | nil => simp [alookup] at h
  | cons p rest ih =>
    obtain ⟨a, b⟩ := p
    by_cases hp : a = k
    · subst hp
      simp [alookup] at h
      subst h
      simp [aset, List.countP_cons]
      omega
    · simp only [alookup, if_neg (by simpa using hp)] at h
      simp only [aset, if_neg (by simpa using hp), List.countP_cons]
      have := ih h
      omega

theorem countP_aset_absent {β : Type} (q : String × β → Bool) {k : String}
    (v : β) {l : List (String × β)} (h : alookup k l = none) :
    (aset k v l).countP q = l.countP q + (if q (k, v) then 1 else 0) := by
  induction l with
  | nil => simp [aset, List.countP_cons]
  | cons p rest ih =>
    obtain ⟨a, b⟩ := p
    by_cases hp : a = k
    · simp [alookup, hp] at h
    · simp only [alookup, if_neg (by simpa using hp)] at h
      simp only [aset, if_neg (by simpa using hp), List.countP_cons]
      have := ih h
      omega

theorem countP_aerase_present {β : Type} (q : String × β → Bool) {k : String}
    {s : β} {l : List (String × β)} (h : alookup k l = some s) :
    (aerase k l).countP q + (if q (k, s) then 1 else 0) = l.countP q := by
  induction l with
  | nil => simp [alookup] at h
  | cons p rest ih =>
    obtain ⟨a, b⟩ := p
    by_cases hp : a = k
    · subst hp
      simp [alookup] at h
      subst h
      simp [aerase, List.countP_cons]
    · simp only [alookup, if_neg (by simpa using hp)] at h
      simp only [aerase, if_neg (by simpa using hp), List.countP_cons]
      have := ih h
      omega

theorem mem_sadd (x y : String) (s : List String) :
    y ∈ sadd x s ↔ y ∈ s ∨ y = x := by
  by_cases h : x ∈ s
  · simp only [sadd, if_pos h]
    constructor
    · exact Or.inl
    · rintro (hy | rfl)
      · exact hy
      · exact h
  · simp [sadd, h]

theorem sadd_nodup {x : String} {s : List String} (h : s.Nodup) :
    (sadd x s).Nodup := by
  by_cases hx : x ∈ s
  · simpa [sadd, hx] using h
  · simp only [sadd, if_neg hx]
    rw [List.nodup_append]
    refine ⟨h, List.nodup_singleton x, ?_⟩
    intro a ha hb
    simp at hb
    subst hb
    exact hx ha

theorem sadd_ne_nil (x : String) (s : List String) : sadd x s ≠ [] := by
  by_cases hx : x ∈ s
  · simp only [sadd, if_pos hx]
    intro he
    rw [he] at hx
    simp at hx
  · simp [sadd, hx]

theorem mem_sdiscard (x y : String) (s : List String) :
    y ∈ sdiscard x s ↔ y ∈ s ∧ y ≠ x := by
  simp [sdiscard]

theorem sdiscard_nodup {x : String} {s : List String} (h : s.Nodup) :
    (sdiscard x s).Nodup := h.filter _

theorem sdiscard_eq_self {x : String} {s : List String} (h : x ∉ s) :
    sdiscard x s = s := by
  apply List.filter_eq_self.mpr
  intro y hy
  simp only [ne_eq, decide_not, Bool.not_eq_true', decide_eq_false_iff_not]
  intro he
  exact h (he ▸ hy)

theorem sdiscard_eq_nil_forall {x : String} {s : List String}
    (h : sdiscard x s = []) : ∀ y ∈ s, y = x := by
  intro y hy
  by_contra hne
  have hm : y ∈ sdiscard x s := (mem_sdiscard x y s).mpr ⟨hy, hne⟩
  rw [h] at hm
  simp at hm

/-! ## Effect lemmas for the connection manager -/

theorem registry_ext {r r' : Registry}
    (h1 : r.active_connections = r'.active_connections)
    (h2 : r.session_connections = r'.session_connections) : r = r' := by
  cases r
  cases r'
  simp at h1 h2
  simp [h1, h2]

theorem connect_ac (r : Registry) (sock : Nat) (sid cid : String) :
    (connect r sock sid cid).active_connections =
      aset cid sock r.active_connections := rfl

theorem connect_sc (r : Registry) (sock : Nat) (sid cid : String) :
    (connect r sock sid cid).session_connections =
      match alookup sid r.session_connections with
      | none => aset sid (sadd cid []) r.session_connections
      | some s => aset sid (sadd cid s) r.session_connections := rfl

theorem disconnect_ac (r : Registry) (cid sid : String) :
    (disconnect r cid sid).active_connections =
      if (alookup cid r.active_connections).isSome then
        aerase cid r.active_connections
      else r.active_connections := rfl

theorem disconnect_sc (r : Registry) (cid sid : String) :
    (disconnect r cid sid).session_connections =
      match alookup sid r.session_connections with
      | none => r.session_connections
      | some s =>
        if sdiscard cid s = [] then aerase sid r.session_connections
        else aset sid (sdiscard cid s) r.session_connections := rfl

theorem mem_acKeys_disconnect {r : Registry} {cid sid c' : String}
    (hn : (keys r.active_connections).Nodup) :
    c' ∈ acKeys (disconnect r cid sid) ↔ c' ∈ acKeys r ∧ c' ≠ cid := by
  simp only [acKeys, disconnect_ac]
  rcases hh : alookup cid r.active_connections with _ | v
  · simp only [Option.isSome_none, Bool.false_eq_true, if_false]
    have hcid : cid ∉ keys r.active_connections := (alookup_eq_none_iff _ _).mp hh
    constructor
    · intro hm
      refine ⟨hm, ?_⟩
      rintro rfl
      exact hcid hm
    · exact fun hh' => hh'.1
  · simp only [Option.isSome_some, if_true]
    exact mem_keys_aerase hn

theorem mem_sset_disconnect_self {r : Registry} {cid sid x : String}
    (hn : (keys r.session_connections).Nodup) :
    x ∈ sset (disconnect r cid sid) sid ↔ x ∈ sset r sid ∧ x ≠ cid := by
  rcases hs : alookup sid r.session_connections with _ | s
  · simp [sset, disconnect_sc, hs]
  · simp only [sset, disconnect_sc, hs, Option.getD_some]
    by_cases he : sdiscard cid s = []
    · rw [if_pos he, alookup_aerase_self hn]
      simp only [Option.getD_none, List.not_mem_nil, false_iff]
      rintro ⟨hx, hne⟩
      exact hne (sdiscard_eq_nil_forall he x hx)
    · rw [if_neg he, alookup_aset_self]
      simp only [Option.getD_some]
      exact mem_sdiscard cid x s

theorem alookup_sc_disconnect_ne {r : Registry} {cid sid sid' : String}
    (h : sid' ≠ sid) :
    alookup sid' (disconnect r cid sid).session_connections =
      alookup sid' r.session_connections := by
  rw [disconnect_sc]
  rcases hs : alookup sid r.session_connections with _ | s
  · rfl
  · simp only
    by_cases he : sdiscard cid s = []
    · rw [if_pos he, alookup_aerase_ne _ h]
    · rw [if_neg he, alookup_aset_ne _ _ h]

theorem mem_sc_disconnect {r : Registry} {cid sid : String}
    {p : String × List String}
    (hp : p ∈ (disconnect r cid sid).session_connections) (hne : p.1 ≠ sid) :
    p ∈ r.session_connections := by
  rw [disconnect_sc] at hp
  rcases hs : alookup sid r.session_connections with _ | s <;>
    simp only [hs] at hp
  · exact hp
  · by_cases he : sdiscard cid s = []
    · rw [if_pos he] at hp
      exact mem_aerase hp
    · rw [if_neg he] at hp
      rcases mem_aset hp with h' | h'
      · exfalso
        rw [h'] at hne
        exact hne rfl
      · exact h'

theorem wf_disconnect {r : Registry} (h : Wf r) (cid sid : String) :
    Wf (disconnect r cid sid) := by
  obtain ⟨h1, h2, h3, h4⟩ := h
  refine ⟨?_, ?_, ?_, ?_⟩
  · rw [disconnect_ac]
    by_cases hc : (alookup cid r.active_connections).isSome
    · rw [if_pos hc]
      exact (keys_aerase_sublist _ _).nodup h1
    · rw [if_neg hc]
      exact h1
  · rw [disconnect_sc]
    rcases hs : alookup sid r.session_connections with _ | s
    · exact h2
    · simp only
      by_cases he : sdiscard cid s = []
      · rw [if_pos he]
        exact (keys_aerase_sublist _ _).nodup h2
      · rw [if_neg he, keys_aset_present _ (by rw [hs]; rfl)]
        exact h2
  · intro p hp
    rw [disconnect_sc] at hp
    rcases hs : alookup sid r.session_connections with _ | s <;>
      simp only [hs] at hp
    · exact h3 p hp
    · by_cases he : sdiscard cid s = []
      · rw [if_pos he] at hp
        exact h3 p (mem_aerase hp)
      · rw [if_neg he] at hp
        rcases mem_aset hp with h' | h'
        · rw [h']
          exact sdiscard_nodup (h3 (sid, s) (alookup_mem hs))
        · exact h3 p h'
  · intro p hp
    rw [disconnect_sc] at hp
    rcases hs : alookup sid r.session_connections with _ | s <;>
      simp only [hs] at hp
    · exact h4 p hp
    · by_cases he : sdiscard cid s = []
      · rw [if_pos he] at hp
        exact h4 p (mem_aerase hp)
      · rw [if_neg he] at hp
        rcases mem_aset hp with h' | h'
        · rw [h']
          exact he
        · exact h4 p h'

theorem wf_connect {r : Registry} (h : Wf r) {cid : String} (hf : cid ∉ acKeys r)
    (sock : Nat) (sid : String) : Wf (connect r sock sid cid) := by
  obtain ⟨h1, h2, h3, h4⟩ := h
  have hnone : alookup cid r.active_connections = none :=
    (alookup_eq_none_iff _ _).mpr hf
  refine ⟨?_, ?_, ?_, ?_⟩
  · rw [connect_ac, keys_aset_absent _ hnone, List.nodup_append]
    refine ⟨h1, List.nodup_singleton cid, ?_⟩
    intro a ha hb
    simp at hb
    subst hb
    exact hf ha
  · rw [connect_sc]
    rcases hs : alookup sid r.session_connections with _ | s
    · simp only
      rw [keys_aset_absent _ hs, List.nodup_append]
      refine ⟨h2, List.nodup_singleton sid, ?_⟩
      intro a ha hb
      simp at hb
      subst hb
      exact (alookup_eq_none_iff _ _).mp hs ha
    · simp only
      rw [keys_aset_present _ (by rw [hs]; rfl)]
      exact h2
  · intro p hp
    rw [connect_sc] at hp
    rcases hs : alookup sid r.session_connections with _ | s <;>
      simp only [hs] at hp
    · rcases mem_aset hp with h' | h'
      · rw [h']
        exact sadd_nodup List.nodup_nil
      · exact h3 p h'
    · rcases mem_aset hp with h' | h'
      · rw [h']
        exact sadd_nodup (h3 (sid, s) (alookup_mem hs))
      · exact h3 p h'
  · intro p hp
    rw [connect_sc] at hp
    rcases hs : alookup sid r.session_connections with _ | s <;>
      simp only [hs] at hp
    · rcases mem_aset hp with h' | h'
      · rw [h']
        simpa using sadd_ne_nil cid []
      · exact h4 p h'
    · rcases mem_aset hp with h' | h'
      · rw [h']
        simpa using sadd_ne_nil cid s
      · exact h4 p h'

/-! ## Handshake path lemmas -/

theorem reconnect_enqueued_sessions (auth : String → Option Nat) (t sid : String)
    (hne : sid ≠ "") (w' : World) (fails : Nat → Bool) (fs c : String) (s : Nat) :
    (recipe_gen_handshake w' auth fails (some t) (some sid) fs c s).world.enqueued
        = w'.enqueued ∧
    (recipe_gen_handshake w' auth fails (some t) (some sid) fs c s).world.sessions
        = w'.sessions := by
  rcases ha : auth t with _ | uid <;> simp only [recipe_gen_handshake, ha]
  · constructor <;> trivial
  · have hsp : sessionProvided (some sid) = true := by
      simp [sessionProvided, hne]
    simp only [hsp, if_true, Option.getD_some]
    by_cases hmem : sid ∈ w'.sessions
    · simp only [if_pos hmem]
      constructor <;> trivial
    · simp only [if_neg hmem]
      constructor <;> trivial

theorem reconnectAll_enqueued (auth : String → Option Nat) (t sid : String)
    (hne : sid ≠ "") :
    ∀ (ps : List ((Nat → Bool) × String × Nat)) (w' : World),
      (reconnectAll auth t sid w' ps).enqueued = w'.enqueued ∧
      (reconnectAll auth t sid w' ps).sessions = w'.sessions := by
  intro ps
  induction ps with
  | nil =>
    intro w'
    exact ⟨rfl, rfl⟩
  | cons p rest ih =>
    intro w'
    obtain ⟨f, c, s⟩ := p
    simp only [reconnectAll]
    have hstep := reconnect_enqueued_sessions auth t sid hne w' f "" c s
    have hrest := ih (recipe_gen_handshake w' auth f (some t) (some sid) "" c s).world
    exact ⟨hrest.1.trans hstep.1, hrest.2.trans hstep.2⟩

theorem fresh_handshake_world (w : World) (auth : String → Option Nat) {t : String}
    {uid : Nat} (ha : auth t = some uid) (fails : Nat → Bool) (fs c : String)
    (sock : Nat) :
    (recipe_gen_handshake w auth fails (some t) none fs c sock).world.enqueued
        = w.enqueued ++ [fs] ∧
    (recipe_gen_handshake w auth fails (some t) none fs c sock).world.sessions
        = w.sessions ++ [fs] ∧
    (recipe_gen_handshake w auth fails (some t) none fs c sock).ok = true ∧
    (recipe_gen_handshake w auth fails (some t) none fs c sock).sid = fs := by
  simp only [recipe_gen_handshake, ha]
  have hsp : sessionProvided none = false := rfl
  simp only [hsp, Bool.false_eq_true, if_false]
  refine ⟨?_, ?_, ?_, ?_⟩ <;> trivial

/-! ## Claims C2, C4, C6, C10 -/

/-- Claim C4: `disconnect` is idempotent on any well-formed registry state —
a second `disconnect` with the same `(connection_id, session_id)` pair is a
no-op (and, being a total function in the model exactly as the Python body
raises no exception, the second call does not error, including when the
identifier was never registered). -/
theorem claim_C4_disconnect_idempotent (r : Registry) (cid sid : String)
    (h : Wf r) :
    disconnect (disconnect r cid sid) cid sid = disconnect r cid sid := by
  obtain ⟨h1, h2, h3, h4⟩ := h
  apply registry_ext
  · rw [disconnect_ac (disconnect r cid sid) cid sid]
    have hnone : alookup cid (disconnect r cid sid).active_connections = none := by
      rw [disconnect_ac]
      by_cases hc : (alookup cid r.active_connections).isSome
      · rw [if_pos hc]
        exact alookup_aerase_self h1
      · rw [if_neg hc]
        exact Option.not_isSome_iff_eq_none.mp hc
    rw [hnone]
    simp only [Option.isSome_none, Bool.false_eq_true, if_false]
  · rw [disconnect_sc (disconnect r cid sid) cid sid]
    rcases hs : alookup sid r.session_connections with _ | s
    · have hnone : alookup sid (disconnect r cid sid).session_connections = none := by
        simp only [disconnect_sc, hs]
      simp only [hnone]
    · by_cases he : sdiscard cid s = []
      · have hnone : alookup sid (disconnect r cid sid).session_connections = none := by
          simp only [disconnect_sc, hs, if_pos he]
          exact alookup_aerase_self h2
        simp only [hnone]
      · have hsome : alookup sid (disconnect r cid sid).session_connections
            = some (sdiscard cid s) := by
          simp only [disconnect_sc, hs, if_neg he]
          exact alookup_aset_self _ _ _
        simp only [hsome]
        have hcid : cid ∉ sdiscard cid s := by
          intro hm
          exact ((mem_sdiscard cid cid s).mp hm).2 rfl
        rw [sdiscard_eq_self hcid, if_neg he]
        exact aset_same hsome

theorem claim_C4_disconnect_idempotent_witness :
    Wf (Registry.mk [("c1", 7)] [("s1", ["c1"])]) ∧
    disconnect (disconnect (Registry.mk [("c1", 7)] [("s1", ["c1"])]) "c1" "s1")
        "c1" "s1"
      = disconnect (Registry.mk [("c1", 7)] [("s1", ["c1"])]) "c1" "s1" := by
  refine ⟨?_, ?_⟩
  · constructor
    · decide
    · refine ⟨by decide, ?_, ?_⟩ <;> decide
  · exact claim_C4_disconnect_idempotent _ "c1" "s1"
      ⟨by decide, by decide, by decide, by decide⟩

/-- Claim C6: connecting without a session identifier enqueues exactly one
generation task (the enqueue log grows by exactly the fresh session id);
connecting with an existing session identifier enqueues nothing; and a fresh
connect followed by any sequence of reconnects to the resulting session leaves
exactly one enqueue in total. -/
theorem claim_C6_enqueue_once (w : World) (auth : String → Option Nat)
    (t : String) (uid : Nat) (hauth : auth t = some uid) (f0 : Nat → Bool)
    (fs c0 : String) (sock0 : Nat) (hfs : fs ≠ "")
    (ps : List ((Nat → Bool) × String × Nat)) :
    (recipe_gen_handshake w auth f0 (some t) none fs c0 sock0).world.enqueued
        = w.enqueued ++ [fs] ∧
    (∀ (w' : World) (sid : String) (fails : Nat → Bool) (c : String) (s : Nat),
      sid ∈ w'.sessions → sid ≠ "" →
      (recipe_gen_handshake w' auth fails (some t) (some sid) "" c s).world.enqueued
        = w'.enqueued) ∧
    (reconnectAll auth t fs
        (recipe_gen_handshake w auth f0 (some t) none fs c0 sock0).world
        ps).enqueued
      = w.enqueued ++ [fs] := by
  refine ⟨(fresh_handshake_world w auth hauth f0 fs c0 sock0).1, ?_, ?_⟩
  · intro w' sid fails c s _ hne
    exact (reconnect_enqueued_sessions auth t sid hne w' fails "" c s).1
  · have hpre := reconnectAll_enqueued auth t fs hfs ps
      (recipe_gen_handshake w auth f0 (some t) none fs c0 sock0).world
    rw [hpre.1]
    exact (fresh_handshake_world w auth hauth f0 fs c0 sock0).1

theorem claim_C6_enqueue_once_witness :
    ((fun _ : String => some 1) "tok" = some 1) ∧ ("s1" : String) ≠ "" ∧
    (recipe_gen_handshake ⟨emptyRegistry, [], [], []⟩ (fun _ => some 1)
        (fun _ => false) (some "tok") none "s1" "c1" 0).world.enqueued
      = [] ++ ["s1"] ∧
    (reconnectAll (fun _ => some 1) "tok" "s1"
        (recipe_gen_handshake ⟨emptyRegistry, [], [], []⟩ (fun _ => some 1)
          (fun _ => false) (some "tok") none "s1" "c1" 0).world
        [((fun _ => false), "c2", 5)]).enqueued
      = [] ++ ["s1"] := by
  have h := claim_C6_enqueue_once ⟨emptyRegistry, [], [], []⟩ (fun _ => some 1)
    "tok" 1 rfl (fun _ => false) "s1" "c1" 0 (by decide)
    [((fun _ => false), "c2", 5)]
  exact ⟨rfl, by decide, h.1, h.2.2⟩

/-- Claim C10: supplying `session_id = ""` on the recipe-gen endpoint behaves
exactly as supplying no session id at all (for every token, the handler's
result is literally the same), and in particular with a valid token the
connection succeeds, a fresh session is created and exactly one task is
enqueued — the empty string never reaches the 1008 invalid-session close
path. -/
theorem claim_C10_empty_sid_is_absent (w : World) (auth : String → Option Nat)
    (fails : Nat → Bool) (fs fc : String) (sock : Nat) (t : String) (uid : Nat)
    (ha : auth t = some uid) :
    (∀ token,
      recipe_gen_handshake w auth fails token (some "") fs fc sock =
        recipe_gen_handshake w auth fails token none fs fc sock) ∧
    (recipe_gen_handshake w auth fails (some t) (some "") fs fc sock).ok
        = true ∧
    (recipe_gen_handshake w auth fails (some t) (some "") fs fc sock).world.sessions
        = w.sessions ++ [fs] ∧
    (recipe_gen_handshake w auth fails (some t) (some "") fs fc sock).world.enqueued
        = w.enqueued ++ [fs] := by
  have heq : ∀ token,
      recipe_gen_handshake w auth fails token (some "") fs fc sock =
        recipe_gen_handshake w auth fails token none fs fc sock := by
    intro token
    rcases token with _ | t'
    · rfl
    · simp only [recipe_gen_handshake]
      rcases auth t' with _ | uid'
      · rfl
      · rfl
  refine ⟨heq, ?_, ?_, ?_⟩
  · rw [heq (some t)]
    exact (fresh_handshake_world w auth ha fails fs fc sock).2.2.1
  · rw [heq (some t)]
    exact (fresh_handshake_world w auth ha fails fs fc sock).2.1
  · rw [heq (some t)]
    exact (fresh_handshake_world w auth ha fails fs fc sock).1

theorem claim_C10_empty_sid_is_absent_witness :
    ((fun _ : String => some 1) "tok" = some 1) ∧
    recipe_gen_handshake ⟨emptyRegistry, [], [], []⟩ (fun _ => some 1)
        (fun _ => false) (some "tok") (some "") "s1" "c1" 0
      = recipe_gen_handshake ⟨emptyRegistry, [], [], []⟩ (fun _ => some 1)
          (fun _ => false) (some "tok") none "s1" "c1" 0 ∧
    (recipe_gen_handshake ⟨emptyRegistry, [], [], []⟩ (fun _ => some 1)
        (fun _ => false) (some "tok") (some "") "s1" "c1" 0).ok = true := by
  have h := claim_C10_empty_sid_is_absent ⟨emptyRegistry, [], [], []⟩
    (fun _ => some 1) (fun _ => false) "s1" "c1" 0 "tok" 1 rfl
  exact ⟨rfl, h.1 (some "tok"), h.2.1⟩

/-! ## Fan-out loop characterization -/

theorem sendFold_spec (r : Registry) (fails : Nat → Bool) :
    ∀ (conns : List String) (acc : List String × List String),
      conns.foldl (sendStep r fails) acc
        = (acc.1 ++ conns.filter (dOk r fails),
           acc.2 ++ conns.filter (dFail r fails)) := by
  intro conns
  induction conns with
  | nil =>
    intro acc
    simp
  | cons c rest ih =>
    intro acc
    rw [List.foldl_cons, ih]
    rcases hc : alookup c r.active_connections with _ | ws
    · simp [sendStep, hc, dOk, dFail, List.filter_cons]
    · by_cases hf : fails ws
      · simp [sendStep, hc, hf, dOk, dFail, List.filter_cons]
      · simp [sendStep, hc, hf, dOk, dFail, List.filter_cons]

theorem send_delivered_evicted (r : Registry) (fails : Nat → Bool) (sid : String) :
    (send_personal_message r fails sid).delivered
        = (sset r sid).filter (dOk r fails) ∧
    (send_personal_message r fails sid).evicted
        = (sset r sid).filter (dFail r fails) := by
  simp [send_personal_message, sendFold_spec]

theorem send_registry_eq_fold (r : Registry) (fails : Nat → Bool) (sid : String) :
    (send_personal_message r fails sid).registry
      = ((sset r sid).filter (dFail r fails)).foldl
          (fun a c => disconnect a c sid) r := by
  simp [send_personal_message, sendFold_spec]

theorem send_no_failures (r : Registry) (fails : Nat → Bool)
    (h : ∀ n, fails n = false) (sid : String) :
    (send_personal_message r fails sid).registry = r ∧
    (send_personal_message r fails sid).evicted = [] := by
  have hev : (sset r sid).filter (dFail r fails) = [] := by
    rw [List.filter_eq_nil_iff]
    intro c _
    simp only [dFail]
    rcases alookup c r.active_connections with _ | ws
    · simp
    · simp [h ws]
  constructor
  · rw [send_registry_eq_fold, hev]
    rfl
  · rw [(send_delivered_evicted r fails sid).2, hev]

/-- The boolean returned by `send_personal_message`: since the eviction loop
discards every marked-dead id from the aliased `connection_ids` set before
`len(connection_ids) > 0` runs, the result is true iff some member of the
session's call-time set was not marked dead — i.e. iff some registered
connection did not raise on delivery. -/
theorem send_ok_iff (r : Registry) (fails : Nat → Bool) (sid : String) :
    (send_personal_message r fails sid).ok = true ↔
      (sset r sid).filter (fun c => !dFail r fails c) ≠ [] := by
  have hfilter : (sset r sid).filter
      (fun c => !((((sset r sid).foldl (sendStep r fails) ([], [])).2).contains c))
      = (sset r sid).filter (fun c => !dFail r fails c) := by
    rw [sendFold_spec r fails (sset r sid) ([], [])]
    apply List.filter_congr
    intro c hc
    simp only [List.nil_append]
    have hcon : (((sset r sid).filter (dFail r fails)).contains c)
        = dFail r fails c := by
      rcases hd : dFail r fails c
      · have hnm : c ∉ (sset r sid).filter (dFail r fails) := by
          rw [List.mem_filter]
          rintro ⟨_, h2⟩
          rw [hd] at h2
          cases h2
        simpa using hnm
      · have hm : c ∈ (sset r sid).filter (dFail r fails) := by
          rw [List.mem_filter]
          exact ⟨hc, hd⟩
        simpa using hm
    rw [hcon]
  simp only [send_personal_message]
  rw [hfilter]
  simp

/-- Claim C2, amended: `send_personal_message(message, session_id)` returns
true iff at least one connection registered under the session at call time
survives the delivery pass (its socket did not raise) — Python's
`connection_ids` aliases the stored set, which the eviction loop empties of
every failing connection before `len(connection_ids) > 0` runs, so when every
registered connection fails delivery the call returns false; the zero-
connection half of the claim is unchanged: with no registered connections it
returns false, attempts no delivery on any socket, and leaves the registry
untouched. -/
theorem claim_C2_send_result_amended (r : Registry) (fails : Nat → Bool)
    (sid : String) :
    ((send_personal_message r fails sid).ok = true ↔
      (sset r sid).filter (fun c => !dFail r fails c) ≠ []) ∧
    (sset r sid = [] →
      (send_personal_message r fails sid).ok = false ∧
      (send_personal_message r fails sid).delivered = [] ∧
      (send_personal_message r fails sid).evicted = [] ∧
      (send_personal_message r fails sid).registry = r) := by
  refine ⟨send_ok_iff r fails sid, ?_⟩
  intro h
  simp [send_personal_message, h]

theorem claim_C2_send_result_amended_witness :
    sset (Registry.mk [("c1", 0), ("c2", 1)] [("s1", ["c1", "c2"])]) "s1"
        ≠ [] ∧
    (send_personal_message
        (Registry.mk [("c1", 0), ("c2", 1)] [("s1", ["c1", "c2"])])
        (fun n => n == 1) "s1").ok = true ∧
    (send_personal_message emptyRegistry (fun _ => false) "s2").ok = false ∧
    (send_personal_message emptyRegistry (fun _ => false) "s2").delivered
        = [] ∧
    (send_personal_message emptyRegistry (fun _ => false) "s2").registry
        = emptyRegistry := by
  have h1 := claim_C2_send_result_amended
    (Registry.mk [("c1", 0), ("c2", 1)] [("s1", ["c1", "c2"])])
    (fun n => n == 1) "s1"
  have h2 := claim_C2_send_result_amended emptyRegistry (fun _ => false) "s2"
  exact ⟨by decide, h1.1.mpr (by decide), (h2.2 rfl).1, (h2.2 rfl).2.1,
    (h2.2 rfl).2.2.2⟩

/-- Claim C2 as stated is false on the code: with exactly one connection
registered under the session at call time whose socket raises on delivery,
the eviction loop empties the aliased `connection_ids` set before
`len(connection_ids) > 0` is evaluated, so `send_personal_message` returns
false even though a connection was registered at call time — refuting
"true iff at least one connection was registered at call time, regardless of
per-connection delivery success". -/
theorem claim_C2_counterexample :
    sset (Registry.mk [("c1", 0)] [("s1", ["c1"])]) "s1" ≠ [] ∧
    (send_personal_message (Registry.mk [("c1", 0)] [("s1", ["c1"])])
        (fun _ => true) "s1").ok = false := by
  decide

/-! ## Claim C5 -/

/-- Claim C5: fatal handshake errors leave no state — a missing token, a token
that fails authentication, or a non-empty session id whose session is not in
the store each close the socket with code 1008 (reason naming the failure),
register no connection, create no session and no history record (the whole
world is unchanged), and the handler stops before the streaming loop. -/
theorem claim_C5_fatal_handshake_no_state (w : World) (auth : String → Option Nat)
    (fails : Nat → Bool) (token : Option String) (session_id : Option String)
    (fs fc : String) (sock : Nat)
    (hbad : token = none ∨
      (∃ t, token = some t ∧ auth t = none) ∨
      (∃ t uid sid', token = some t ∧ auth t = some uid ∧
        session_id = some sid' ∧ sid' ≠ "" ∧ sid' ∉ w.sessions)) :
    (recipe_gen_handshake w auth fails token session_id fs fc sock).ok = false ∧
    (recipe_gen_handshake w auth fails token session_id fs fc sock).world = w ∧
    ∃ reason, (recipe_gen_handshake w auth fails token session_id fs fc sock).trace
        = [Ev.closed 1008 reason] := by
  rcases hbad with rfl | ⟨t, rfl, ha⟩ | ⟨t, uid, sid', rfl, ha, rfl, hne, hmem⟩
  · exact ⟨rfl, rfl, "Authentication token is required", rfl⟩
  · simp only [recipe_gen_handshake, ha]
    exact ⟨by trivial, by trivial, "Invalid authentication token", by trivial⟩
  · simp only [recipe_gen_handshake, ha]
    have hsp : sessionProvided (some sid') = true := by
      simp [sessionProvided, hne]
    simp only [hsp, if_true, Option.getD_some, if_neg hmem]
    exact ⟨by trivial, by trivial, "Invalid session ID", by trivial⟩

theorem claim_C5_fatal_handshake_no_state_witness :
    (recipe_gen_handshake ⟨emptyRegistry, ["s0"], [], []⟩ (fun _ => some 1)
        (fun _ => false) (some "tok") (some "s9") "f" "c" 0).ok = false ∧
    (recipe_gen_handshake ⟨emptyRegistry, ["s0"], [], []⟩ (fun _ => some 1)
        (fun _ => false) (some "tok") (some "s9") "f" "c" 0).world
      = ⟨emptyRegistry, ["s0"], [], []⟩ ∧
    ∃ reason,
      (recipe_gen_handshake ⟨emptyRegistry, ["s0"], [], []⟩ (fun _ => some 1)
          (fun _ => false) (some "tok") (some "s9") "f" "c" 0).trace
        = [Ev.closed 1008 reason] :=
  claim_C5_fatal_handshake_no_state ⟨emptyRegistry, ["s0"], [], []⟩
    (fun _ => some 1) (fun _ => false) (some "tok") (some "s9") "f" "c" 0
    (Or.inr (Or.inr ⟨"tok", 1, "s9", rfl, rfl, rfl, by decide, by decide⟩))

/-! ## Claim C7 -/

theorem reconnect_trace (w : World) (auth : String → Option Nat)
    (fails : Nat → Bool) {t : String} {uid : Nat} (sid fs fc : String)
    (sock : Nat) (ha : auth t = some uid) (hne : sid ≠ "")
    (hmem : sid ∈ w.sessions) :
    (recipe_gen_handshake w auth fails (some t) (some sid) fs fc sock).trace
      = send_session_history w sid ++
        [Ev.broadcast sid MType.connectionEstablished,
         Ev.histAppend sid MType.systemResponse] ∧
    (recipe_gen_handshake w auth fails (some t) (some sid) fs fc sock).ok
      = true := by
  simp only [recipe_gen_handshake, ha]
  have hsp : sessionProvided (some sid) = true := by
    simp [sessionProvided, hne]
  simp only [hsp, if_true, Option.getD_some, if_pos hmem]
  constructor <;> trivial

theorem fresh_trace (w : World) (auth : String → Option Nat)
    (fails : Nat → Bool) {t : String} {uid : Nat} (fs fc : String) (sock : Nat)
    (ha : auth t = some uid) :
    (recipe_gen_handshake w auth fails (some t) none fs fc sock).trace
      = [Ev.broadcast fs MType.connectionEstablished,
         Ev.histAppend fs MType.systemResponse,
         Ev.enqueue fs,
         Ev.histAppend fs MType.systemResponse] := by
  simp only [recipe_gen_handshake, ha]
  have hsp : sessionProvided none = false := rfl
  simp only [hsp, Bool.false_eq_true, if_false]
  have hh : histOf { w with sessions := w.sessions ++ [fs],
                            histories := aset fs [] w.histories } fs = [] := by
    simp [histOf, alookup_aset_self]
  simp [send_session_history, hh]

/-- Claim C7, amended: a successfully registered connection is sent the full
ordered history of its session as a single `session_history` frame on its own
socket (not broadcast) before any other server event — but only when that
history is non-empty; a connection whose replay history is empty (in
particular every fresh connect) receives no `session_history` message at all,
and `connection_established` is its first server event. -/
theorem claim_C7_history_replay_amended (w : World) (auth : String → Option Nat)
    (fails : Nat → Bool) (t : String) (uid : Nat) (sid fs fc : String)
    (sock : Nat) (ha : auth t = some uid) :
    (sid ∈ w.sessions → sid ≠ "" → histOf w sid ≠ [] →
      (recipe_gen_handshake w auth fails (some t) (some sid) fs fc sock).trace
        = Ev.sentHistory sid (histOf w sid)
            :: Ev.broadcast sid MType.connectionEstablished
            :: [Ev.histAppend sid MType.systemResponse]) ∧
    (sid ∈ w.sessions → sid ≠ "" → histOf w sid = [] →
      (recipe_gen_handshake w auth fails (some t) (some sid) fs fc sock).trace
        = Ev.broadcast sid MType.connectionEstablished
            :: [Ev.histAppend sid MType.systemResponse]) ∧
    ((recipe_gen_handshake w auth fails (some t) none fs fc sock).trace
      = Ev.broadcast fs MType.connectionEstablished
          :: Ev.histAppend fs MType.systemResponse
          :: Ev.enqueue fs
          :: [Ev.histAppend fs MType.systemResponse]) := by
  refine ⟨?_, ?_, ?_⟩
  · intro hmem hne hh
    rw [(reconnect_trace w auth fails sid fs fc sock ha hne hmem).1]
    simp [send_session_history, hh]
  · intro hmem hne hh
    rw [(reconnect_trace w auth fails sid fs fc sock ha hne hmem).1]
    simp [send_session_history, hh]
  · exact fresh_trace w auth fails fs fc sock ha

theorem claim_C7_history_replay_amended_witness :
    ((fun _ : String => some 1) "tok" = some 1) ∧
    ("s1" : String) ∈ (⟨emptyRegistry, ["s1"],
        [("s1", [MType.systemResponse])], []⟩ : World).sessions ∧
    histOf (⟨emptyRegistry, ["s1"], [("s1", [MType.systemResponse])], []⟩ : World)
        "s1" ≠ [] ∧
    (recipe_gen_handshake
        ⟨emptyRegistry, ["s1"], [("s1", [MType.systemResponse])], []⟩
        (fun _ => some 1) (fun _ => false) (some "tok") (some "s1") "f" "c" 0).trace
      = Ev.sentHistory "s1" (histOf ⟨emptyRegistry, ["s1"],
            [("s1", [MType.systemResponse])], []⟩ "s1")
          :: Ev.broadcast "s1" MType.connectionEstablished
          :: [Ev.histAppend "s1" MType.systemResponse] := by
  have h := claim_C7_history_replay_amended
    ⟨emptyRegistry, ["s1"], [("s1", [MType.systemResponse])], []⟩
    (fun _ => some 1) (fun _ => false) "tok" 1 "s1" "f" "c" 0 rfl
  exact ⟨rfl, by decide, by decide, h.1 (by decide) (by decide) (by decide)⟩

/-- Claim C7 as stated is false on the code: on a fresh connect (empty
history), `send_session_history` sends nothing (`if messages:` in ws.py), so
no `session_history` message precedes `connection_established` — the first
event on the socket is `connection_established` and no event of the run is a
`session_history` frame. -/
theorem claim_C7_counterexample :
    (recipe_gen_handshake ⟨emptyRegistry, [], [], []⟩ (fun _ => some 1)
        (fun _ => false) (some "tok") none "s1" "c1" 0).ok = true ∧
    (∀ e ∈ (recipe_gen_handshake ⟨emptyRegistry, [], [], []⟩ (fun _ => some 1)
        (fun _ => false) (some "tok") none "s1" "c1" 0).trace,
      isSentHistory e = false) ∧
    (recipe_gen_handshake ⟨emptyRegistry, [], [], []⟩ (fun _ => some 1)
        (fun _ => false) (some "tok") none "s1" "c1" 0).trace.head?
      = some (Ev.broadcast "s1" MType.connectionEstablished) := by
  decide

/-! ## Claim C8 -/

theorem not_mem_delete_session (w : World) (sid : String) :
    sid ∉ (delete_session w sid).sessions := by
  simp [delete_session]

/-- Claim C8: on the worker channel, every `task_completed` or `task_failed`
message for session S first logs and broadcasts the message, and afterwards
invokes `delete_session S` — regardless of the broadcast outcome (any
delivery-failure oracle, including a session with zero connections) and
regardless of whether persisting the generated recipe artifacts succeeds; in
every such run the session is gone from the store at the end. -/
theorem claim_C8_terminal_deletes_session (w : World) (fails : Nat → Bool)
    (sid : String) (mtype : MType) (hasResults persistOk : Bool)
    (hterm : mtype = MType.taskCompleted ∨ mtype = MType.taskFailed) :
    (handleWorker w fails sid mtype hasResults persistOk).trace.take 2
        = [Ev.histAppend sid mtype, Ev.broadcast sid mtype] ∧
    Ev.deleteSession sid
        ∈ (handleWorker w fails sid mtype hasResults persistOk).trace.drop 2 ∧
    sid ∉ (handleWorker w fails sid mtype hasResults persistOk).world.sessions := by
  rcases hterm with rfl | rfl
  · cases hasResults
    · simp [handleWorker, not_mem_delete_session]
    · cases persistOk
      · simp [handleWorker, send_error_message, send_response,
              not_mem_delete_session]
      · simp [handleWorker, not_mem_delete_session]
  · cases hasResults <;> cases persistOk <;>
      simp [handleWorker, not_mem_delete_session]

theorem claim_C8_terminal_deletes_session_witness :
    (MType.taskCompleted = MType.taskCompleted ∨
      MType.taskCompleted = MType.taskFailed) ∧
    (handleWorker ⟨emptyRegistry, ["s1"], [], []⟩ (fun _ => false) "s1"
        MType.taskCompleted true false).trace.take 2
      = [Ev.histAppend "s1" MType.taskCompleted,
         Ev.broadcast "s1" MType.taskCompleted] ∧
    Ev.deleteSession "s1"
      ∈ (handleWorker ⟨emptyRegistry, ["s1"], [], []⟩ (fun _ => false) "s1"
          MType.taskCompleted true false).trace.drop 2 ∧
    "s1" ∉ (handleWorker ⟨emptyRegistry, ["s1"], [], []⟩ (fun _ => false) "s1"
        MType.taskCompleted true false).world.sessions := by
  have h := claim_C8_terminal_deletes_session ⟨emptyRegistry, ["s1"], [], []⟩
    (fun _ => false) "s1" MType.taskCompleted true false (Or.inl rfl)
  exact ⟨Or.inl rfl, h.1, h.2.1, h.2.2⟩

/-! ## Claim C9 -/

/-- Claim C9: a received client frame that is not valid JSON or fails envelope
validation makes the streaming loop send a structured `error`-typed message to
the session and continue (the `Bool` result is true — no break, and no close
frame is emitted); the decode failure itself mutates no session or enqueue
state, and as long as the error delivery raises on no socket the registry —
in particular this connection's entry — is unchanged. -/
theorem claim_C9_decode_error_recoverable (w : World) (fails : Nat → Bool)
    (sid : String) (fr : Frame) (hfr : fr ≠ Frame.valid) :
    (handleClientFrame w fails sid fr).2.2 = true ∧
    Ev.broadcast sid MType.errorMsg ∈ (handleClientFrame w fails sid fr).2.1 ∧
    (∀ code reason, Ev.closed code reason ∉ (handleClientFrame w fails sid fr).2.1) ∧
    (handleClientFrame w fails sid fr).1.sessions = w.sessions ∧
    (handleClientFrame w fails sid fr).1.enqueued = w.enqueued ∧
    ((∀ n, fails n = false) →
      (handleClientFrame w fails sid fr).1.registry = w.registry) := by
  have hreg : ∀ h : ∀ n, fails n = false,
      (send_personal_message w.registry fails sid).registry = w.registry :=
    fun h => (send_no_failures w.registry fails h sid).1
  cases fr with
  | valid => exact absurd rfl hfr
  | invalidJson =>
    refine ⟨rfl, ?_, ?_, ?_, ?_, ?_⟩
    · by_cases hok : (send_personal_message w.registry fails sid).ok <;>
        simp [handleClientFrame, send_error_message, send_response, hok]
    · intro code reason
      by_cases hok : (send_personal_message w.registry fails sid).ok <;>
        simp [handleClientFrame, send_error_message, send_response, hok]
    · by_cases hok : (send_personal_message w.registry fails sid).ok <;>
        simp [handleClientFrame, send_error_message, send_response, addHist, hok]
    · by_cases hok : (send_personal_message w.registry fails sid).ok <;>
        simp [handleClientFrame, send_error_message, send_response, addHist, hok]
    · intro h
      by_cases hok : (send_personal_message w.registry fails sid).ok <;>
        simp [handleClientFrame, send_error_message, send_response, addHist, hok,
              hreg h]
  | invalidEnvelope =>
    refine ⟨rfl, ?_, ?_, ?_, ?_, ?_⟩
    · by_cases hok : (send_personal_message w.registry fails sid).ok <;>
        simp [handleClientFrame, send_error_message, send_response, hok]
    · intro code reason
      by_cases hok : (send_personal_message w.registry fails sid).ok <;>
        simp [handleClientFrame, send_error_message, send_response, hok]
    · by_cases hok : (send_personal_message w.registry fails sid).ok <;>
        simp [handleClientFrame, send_error_message, send_response, addHist, hok]
    · by_cases hok : (send_personal_message w.registry fails sid).ok <;>
        simp [handleClientFrame, send_error_message, send_response, addHist, hok]
    · intro h
      by_cases hok : (send_personal_message w.registry fails sid).ok <;>
        simp [handleClientFrame, send_error_message, send_response, addHist, hok,
              hreg h]

theorem claim_C9_decode_error_recoverable_witness :
    (Frame.invalidJson ≠ Frame.valid) ∧
    (handleClientFrame ⟨emptyRegistry, ["s1"], [], []⟩ (fun _ => false) "s1"
        Frame.invalidJson).2.2 = true ∧
    Ev.broadcast "s1" MType.errorMsg
      ∈ (handleClientFrame ⟨emptyRegistry, ["s1"], [], []⟩ (fun _ => false) "s1"
          Frame.invalidJson).2.1 ∧
    (handleClientFrame ⟨emptyRegistry, ["s1"], [], []⟩ (fun _ => false) "s1"
        Frame.invalidJson).1.registry = emptyRegistry := by
  have h := claim_C9_decode_error_recoverable ⟨emptyRegistry, ["s1"], [], []⟩
    (fun _ => false) "s1" Frame.invalidJson (by decide)
  exact ⟨by decide, h.1, h.2.1, h.2.2.2.2.2 (fun _ => rfl)⟩

/-! ## Claim C1: the registration invariant -/

theorem two_mem_countP {α : Type} (q : α → Bool) {l : List α} {a b : α}
    (ha : a ∈ l) (hb : b ∈ l) (hne : a ≠ b) (hqa : q a = true)
    (hqb : q b = true) : 2 ≤ l.countP q := by
  induction l with
  | nil => simp at ha
  | cons x rest ih =>
    rcases List.mem_cons.mp ha with rfl | ha'
    · rcases List.mem_cons.mp hb with rfl | hb'
      · exact absurd rfl hne
      · rw [List.countP_cons]
        simp [hqa]
        exact ⟨b, hb', hqb⟩
    · rcases List.mem_cons.mp hb with rfl | hb'
      · rw [List.countP_cons]
        simp [hqb]
        exact ⟨a, ha', hqa⟩
      · have := ih ha' hb'
        rw [List.countP_cons]
        omega

theorem owner_unique {r : Registry} (hinv : ExactlyOnce r) {c : String}
    (hc : c ∈ acKeys r) {p : String × List String}
    (hp : p ∈ r.session_connections) (hcp : c ∈ p.2)
    {q : String × List String} (hq : q ∈ r.session_connections)
    (hcq : c ∈ q.2) : p = q := by
  by_contra hne
  have h2 := two_mem_countP (fun p => decide (c ∈ p.2)) hp hq hne
    (by simp [hcp]) (by simp [hcq])
  have h1 := hinv.1 c hc
  omega

theorem okOp_conn_iff (r : Registry) (sock : Nat) (sid cid : String) :
    okOp r (Op.conn sock sid cid) = true ↔
      cid ∉ acKeys r ∧ ∀ p ∈ r.session_connections, cid ∉ p.2 := by
  simp [okOp, List.all_eq_true]

theorem okOp_disc_iff (r : Registry) (cid sid : String) :
    okOp r (Op.disc cid sid) = true ↔
      (cid ∉ acKeys r ∨
        ∀ p ∈ r.session_connections, cid ∈ p.2 → p.1 = sid) := by
  simp only [okOp, Bool.or_eq_true, decide_eq_true_eq, List.all_eq_true]
  constructor
  · rintro (h | h)
    · exact Or.inl h
    · right
      intro p hp hcid
      rcases (by simpa using h p hp : cid ∉ p.2 ∨ p.1 = sid) with h' | h'
      · exact absurd hcid h'
      · exact h'
  · rintro (h | h)
    · exact Or.inl h
    · right
      intro p hp
      by_cases hcid : cid ∈ p.2
      · simp [h p hp hcid]
      · simp [hcid]

theorem disconnect_unreg {r : Registry} (hw : Wf r) (hinv : ExactlyOnce r)
    {cid : String} (h : cid ∉ acKeys r) (sid : String) :
    disconnect r cid sid = r := by
  obtain ⟨h1, h2, h3, h4⟩ := hw
  apply registry_ext
  · rw [disconnect_ac]
    rw [if_neg]
    rw [(alookup_eq_none_iff cid r.active_connections).mpr h]
    simp
  · rw [disconnect_sc]
    rcases hs : alookup sid r.session_connections with _ | s
    · rfl
    · have hcs : cid ∉ s := fun hc => h (hinv.2 (sid, s) (alookup_mem hs) cid hc)
      simp only [sdiscard_eq_self hcs]
      rw [if_neg (by simpa using h4 (sid, s) (alookup_mem hs))]
      exact aset_same hs

theorem inv_step_conn {r : Registry} (hw : Wf r) (hinv : ExactlyOnce r)
    (sock : Nat) (sid : String) {cid : String}
    (hfresh1 : cid ∉ acKeys r)
    (hfresh2 : ∀ p ∈ r.session_connections, cid ∉ p.2) :
    Wf (connect r sock sid cid) ∧ ExactlyOnce (connect r sock sid cid) := by
  obtain ⟨h1, h2, h3, h4⟩ := hw
  obtain ⟨hi1, hi2⟩ := hinv
  refine ⟨wf_connect ⟨h1, h2, h3, h4⟩ hfresh1 sock sid, ?_, ?_⟩
  · -- every registered id lies in exactly one session set
    intro c hc
    have hmemac : c ∈ acKeys r ∨ c = cid := by
      have := (mem_keys_aset cid c sock r.active_connections).mp
        (by simpa [acKeys, connect_ac] using hc)
      exact this
    have hzero_of_cid : r.session_connections.countP
        (fun p => decide (cid ∈ p.2)) = 0 := by
      rw [List.countP_eq_zero]
      intro p hp
      simpa using hfresh2 p hp
    rw [connect_sc]
    rcases hs : alookup sid r.session_connections with _ | s
    · simp only
      rw [countP_aset_absent _ _ hs]
      have hscid : sadd cid [] = [cid] := by simp [sadd]
      rcases hmemac with hcm | hceq
      · have hne : c ≠ cid := by
          rintro rfl
          exact hfresh1 hcm
        rw [hi1 c hcm]
        simp [hscid, hne]
      · subst hceq
        rw [hzero_of_cid]
        simp [hscid]
    · simp only
      have heq := countP_aset_present (fun p => decide (c ∈ p.2))
        (sadd cid s) hs
      rcases hmemac with hcm | hceq
      · have hne : c ≠ cid := by
          rintro rfl
          exact hfresh1 hcm
        have hmm : (c ∈ sadd cid s) ↔ (c ∈ s) := by
          rw [mem_sadd]
          simp [hne]
        have h1c := hi1 c hcm
        by_cases hcs : c ∈ s <;> simp [hcs, hmm] at heq <;> omega
      · subst hceq
        have hnots : c ∉ s := by
          simpa using hfresh2 (sid, s) (alookup_mem hs)
        have hin : c ∈ sadd c s := (mem_sadd c c s).mpr (Or.inr rfl)
        rw [hzero_of_cid] at heq
        simp [hnots, hin] at heq
        omega
  · -- every session-set member is a registered id
    intro p hp c hcp
    have hgoal : c ∈ acKeys r ∨ c = cid → c ∈ acKeys (connect r sock sid cid) := by
      intro h
      simpa [acKeys, connect_ac] using
        (mem_keys_aset cid c sock r.active_connections).mpr h
    apply hgoal
    rw [connect_sc] at hp
    rcases hs : alookup sid r.session_connections with _ | s <;>
      simp only [hs] at hp
    · rcases mem_aset hp with rfl | hm
      · have : c ∈ sadd cid [] := hcp
        rcases (mem_sadd cid c []).mp this with hx | hx
        · simp at hx
        · exact Or.inr hx
      · exact Or.inl (hi2 p hm c hcp)
    · rcases mem_aset hp with rfl | hm
      · have : c ∈ sadd cid s := hcp
        rcases (mem_sadd cid c s).mp this with hx | hx
        · exact Or.inl (hi2 (sid, s) (alookup_mem hs) c hx)
        · exact Or.inr hx
      · exact Or.inl (hi2 p hm c hcp)

theorem inv_step_disc {r : Registry} (hw : Wf r) (hinv : ExactlyOnce r)
    {cid sid : String}
    (hok : cid ∉ acKeys r ∨
      ∀ p ∈ r.session_connections, cid ∈ p.2 → p.1 = sid) :
    Wf (disconnect r cid sid) ∧ ExactlyOnce (disconnect r cid sid) := by
  refine ⟨wf_disconnect hw cid sid, ?_⟩
  by_cases hcid : cid ∈ acKeys r
  · have howner : ∀ p ∈ r.session_connections, cid ∈ p.2 → p.1 = sid := by
      rcases hok with h | h
      · exact absurd hcid h
      · exact h
    obtain ⟨h1, h2, h3, h4⟩ := hw
    obtain ⟨hi1, hi2⟩ := hinv
    -- the session set owning cid is sid's
    have hpos : 0 < r.session_connections.countP
        (fun p => decide (cid ∈ p.2)) := by
      rw [hi1 cid hcid]
      omega
    obtain ⟨p0, hp0, hcp0⟩ := List.countP_pos.mp hpos
    have hcp0' : cid ∈ p0.2 := by simpa using hcp0
    have hp0sid : p0.1 = sid := howner p0 hp0 hcp0'
    have hs : alookup sid r.session_connections = some p0.2 := by
      rw [← hp0sid]
      exact alookup_of_mem_nodup h2 hp0
    constructor
    · intro c hc
      have hc' := (mem_acKeys_disconnect h1).mp hc
      rw [disconnect_sc]
      simp only [hs]
      by_cases he : sdiscard cid p0.2 = []
      · rw [if_pos he]
        have heq := countP_aerase_present (fun p => decide (c ∈ p.2)) hs
        have hcs : c ∉ p0.2 := by
          intro hcs
          exact hc'.2 (sdiscard_eq_nil_forall he c hcs)
        have h1c := hi1 c hc'.1
        simp [hcs] at heq
        omega
      · rw [if_neg he]
        have heq := countP_aset_present (fun p => decide (c ∈ p.2))
          (sdiscard cid p0.2) hs
        have hmm : (c ∈ sdiscard cid p0.2) ↔ (c ∈ p0.2) := by
          rw [mem_sdiscard]
          exact ⟨fun h => h.1, fun h => ⟨h, hc'.2⟩⟩
        have h1c := hi1 c hc'.1
        by_cases hcp2 : c ∈ p0.2 <;> simp [hcp2, hmm] at heq <;> omega
    · intro p hp c hcp
      rw [mem_acKeys_disconnect h1]
      by_cases hpsid : p.1 = sid
      · -- p is the (rewritten) sid binding
        rw [disconnect_sc] at hp
        simp only [hs] at hp
        by_cases he : sdiscard cid p0.2 = []
        · rw [if_pos he] at hp
          exfalso
          have hmem : p.1 ∈ keys (aerase sid r.session_connections) :=
            mem_keys_of_mem hp
          exact ((mem_keys_aerase h2).mp hmem).2 hpsid
        · rw [if_neg he] at hp
          have hpe := mem_aset_key_eq h2 hp hpsid
          rw [hpe] at hcp
          have hcs := (mem_sdiscard cid c p0.2).mp hcp
          exact ⟨hi2 p0 hp0 c hcs.1, hcs.2⟩
      · have hporig : p ∈ r.session_connections := mem_sc_disconnect hp hpsid
        refine ⟨hi2 p hporig c hcp, ?_⟩
        rintro rfl
        exact hpsid (howner p hporig hcp)
  · rw [disconnect_unreg ⟨hw.1, hw.2.1, hw.2.2.1, hw.2.2.2⟩ hinv hcid sid]
    exact hinv

theorem goodFrom_inv :
    ∀ (ops : List Op) (r : Registry), Wf r → ExactlyOnce r →
      goodFrom r ops = true →
      Wf (runOps r ops) ∧ ExactlyOnce (runOps r ops) := by
  intro ops
  induction ops with
  | nil =>
    intro r hw hi _
    exact ⟨hw, hi⟩
  | cons op rest ih =>
    intro r hw hi hg
    simp only [goodFrom, Bool.and_eq_true] at hg
    obtain ⟨hok, hrest⟩ := hg
    have hstep : Wf (applyOp r op) ∧ ExactlyOnce (applyOp r op) := by
      cases op with
      | conn sock sid cid =>
        have h := (okOp_conn_iff r sock sid cid).mp hok
        exact inv_step_conn hw hi sock sid h.1 h.2
      | disc cid sid =>
        exact inv_step_disc hw hi ((okOp_disc_iff r cid sid).mp hok)
    have hrun : runOps r (op :: rest) = runOps (applyOp r op) rest := by
      simp [runOps]
    rw [hrun]
    exact ih (applyOp r op) hstep.1 hstep.2 hrest

/-- Claim C1, amended: starting from the empty registry, the registration
invariant (every id in `active_connections` lies in exactly one session's
connection set and every session-set member is in `active_connections`) holds
after every admissible sequence of `connect`/`disconnect` operations —
admissible meaning connect uses a fresh (uuid4) connection id and every
disconnect that names a currently registered connection id supplies the
session id it is registered under, as every call site in the repository
does.  With fully arbitrary disconnect argument pairs the invariant fails
(see the counterexample). -/
theorem claim_C1_registry_invariant_amended (ops : List Op)
    (hgood : goodFrom emptyRegistry ops = true) :
    ExactlyOnce (runOps emptyRegistry ops) :=
  (goodFrom_inv ops emptyRegistry
    ⟨List.nodup_nil, List.nodup_nil, by simp [emptyRegistry], by simp [emptyRegistry]⟩
    ⟨by simp [emptyRegistry, acKeys, keys], by simp [emptyRegistry]⟩
    hgood).2

theorem claim_C1_registry_invariant_amended_witness :
    goodFrom emptyRegistry
        [Op.conn 0 "s1" "c1", Op.conn 1 "s1" "c2", Op.disc "c1" "s1"] = true ∧
    ExactlyOnce (runOps emptyRegistry
        [Op.conn 0 "s1" "c1", Op.conn 1 "s1" "c2", Op.disc "c1" "s1"]) :=
  ⟨by decide, claim_C1_registry_invariant_amended
    [Op.conn 0 "s1" "c1", Op.conn 1 "s1" "c2", Op.disc "c1" "s1"] (by decide)⟩

/-- Claim C1 as stated (arbitrary argument pairs) is false on the code: after
`connect(sock, "s1")` returning id `c1` followed by `disconnect(c1, "s2")`
(a mismatched session id, which the claim's arbitrary pairs allow), `c1` is
deleted from `active_connections` but remains in `"s1"`'s connection set, so
a session-set member is no longer in the connection-to-socket map. -/
theorem claim_C1_registry_invariant_counterexample :
    ¬ ExactlyOnce (runOps emptyRegistry
        [Op.conn 0 "s1" "c1", Op.disc "c1" "s2"]) := by
  decide

/-! ## Claim C3: fan-out completeness under partial failure -/

theorem foldDisc_wf (sid : String) :
    ∀ (D : List String) (r : Registry), Wf r →
      Wf (D.foldl (fun a c => disconnect a c sid) r) := by
  intro D
  induction D with
  | nil =>
    intro r hw
    exact hw
  | cons d D' ih =>
    intro r hw
    rw [List.foldl_cons]
    exact ih (disconnect r d sid) (wf_disconnect hw d sid)

theorem mem_acKeys_foldDisc (sid c : String) :
    ∀ (D : List String) (r : Registry), Wf r →
      (c ∈ acKeys (D.foldl (fun a c => disconnect a c sid) r) ↔
        c ∈ acKeys r ∧ c ∉ D) := by
  intro D
  induction D with
  | nil =>
    intro r _
    simp
  | cons d D' ih =>
    intro r hw
    rw [List.foldl_cons, ih (disconnect r d sid) (wf_disconnect hw d sid),
        mem_acKeys_disconnect hw.1]
    simp only [List.mem_cons]
    tauto

theorem mem_sset_foldDisc (sid x : String) :
    ∀ (D : List String) (r : Registry), Wf r →
      (x ∈ sset (D.foldl (fun a c => disconnect a c sid) r) sid ↔
        x ∈ sset r sid ∧ x ∉ D) := by
  intro D
  induction D with
  | nil =>
    intro r _
    simp
  | cons d D' ih =>
    intro r hw
    rw [List.foldl_cons, ih (disconnect r d sid) (wf_disconnect hw d sid),
        mem_sset_disconnect_self hw.2.1]
    simp only [List.mem_cons]
    tauto

theorem alookup_sc_foldDisc_ne (sid sid' : String) (h : sid' ≠ sid) :
    ∀ (D : List String) (r : Registry),
      alookup sid' (D.foldl (fun a c => disconnect a c sid) r).session_connections
        = alookup sid' r.session_connections := by
  intro D
  induction D with
  | nil =>
    intro r
    rfl
  | cons d D' ih =>
    intro r
    rw [List.foldl_cons, ih (disconnect r d sid), alookup_sc_disconnect_ne h]

/-- Claim C3: for a session with a non-empty connection set of which a strict
subset fail delivery, `send_personal_message` returns true, exactly the
failing connections are removed from both registry maps (the non-failing ones
stay registered under the session), and each non-failing connection receives
exactly one copy of the message (one entry in the delivered list) — no
connection's failure aborts delivery to the others.  `dFail` marks the
connections whose socket raises; under the registry invariant every member of
the session's set holds a live socket entry, so these are exactly the M
failing connections of the claim. -/
theorem claim_C3_fanout_partial_failure (r : Registry) (fails : Nat → Bool)
    (sid : String) (hw : Wf r) (hinv : ExactlyOnce r)
    (hne : sset r sid ≠ [])
    (hM : ((sset r sid).filter (dFail r fails)).length < (sset r sid).length) :
    (send_personal_message r fails sid).ok = true ∧
    (∀ c ∈ sset r sid, dFail r fails c = true →
      c ∉ acKeys (send_personal_message r fails sid).registry ∧
      ∀ p ∈ (send_personal_message r fails sid).registry.session_connections,
        c ∉ p.2) ∧
    (∀ c ∈ sset r sid, dFail r fails c = false →
      (send_personal_message r fails sid).delivered.count c = 1 ∧
      c ∈ acKeys (send_personal_message r fails sid).registry ∧
      c ∈ sset (send_personal_message r fails sid).registry sid) := by
  obtain ⟨h1, h2, h3, h4⟩ := hw
  obtain ⟨hi1, hi2⟩ := hinv
  -- the session's stored set
  have hs0 : alookup sid r.session_connections = some (sset r sid) := by
    rcases hs : alookup sid r.session_connections with _ | s
    · exact absurd (by simp [sset, hs]) hne
    · simp [sset, hs]
  have hmem0 : (sid, sset r sid) ∈ r.session_connections := alookup_mem hs0
  have hnodup0 : (sset r sid).Nodup := h3 _ hmem0
  have hsub : ∀ c ∈ sset r sid, c ∈ acKeys r := hi2 _ hmem0
  have hwf : Wf r := ⟨h1, h2, h3, h4⟩
  have hreg := send_registry_eq_fold r fails sid
  have hDsub : ∀ c, c ∈ (sset r sid).filter (dFail r fails) ↔
      c ∈ sset r sid ∧ dFail r fails c = true := by
    intro c
    simp [List.mem_filter]
  refine ⟨?_, ?_, ?_⟩
  · rw [send_ok_iff]
    intro hnil
    have hall : ∀ c ∈ sset r sid, dFail r fails c = true := by
      intro c hc
      rcases hd : dFail r fails c
      · exfalso
        have hmem : c ∈ (sset r sid).filter (fun c => !dFail r fails c) := by
          rw [List.mem_filter]
          exact ⟨hc, by simp [hd]⟩
        rw [hnil] at hmem
        simp at hmem
      · rfl
    have hfull : (sset r sid).filter (dFail r fails) = sset r sid :=
      List.filter_eq_self.mpr hall
    rw [hfull] at hM
    exact lt_irrefl _ hM
  · intro c hc hfail
    have hcD : c ∈ (sset r sid).filter (dFail r fails) :=
      (hDsub c).mpr ⟨hc, hfail⟩
    constructor
    · rw [hreg]
      intro hmem
      exact (((mem_acKeys_foldDisc sid c _ r hwf).mp hmem).2) hcD
    · intro p hp hcp
      rw [hreg] at hp
      have hwf' : Wf (((sset r sid).filter (dFail r fails)).foldl
          (fun a c => disconnect a c sid) r) := foldDisc_wf sid _ r hwf
      have hlp : alookup p.1 (((sset r sid).filter (dFail r fails)).foldl
          (fun a c => disconnect a c sid) r).session_connections = some p.2 :=
        alookup_of_mem_nodup hwf'.2.1 hp
      by_cases hpsid : p.1 = sid
      · -- p is the surviving sid binding: its set excludes every evicted id
        rw [hpsid] at hlp
        have hcs : c ∈ sset (((sset r sid).filter (dFail r fails)).foldl
            (fun a c => disconnect a c sid) r) sid := by
          have hv : sset (((sset r sid).filter (dFail r fails)).foldl
              (fun a c => disconnect a c sid) r) sid = p.2 := by
            rw [sset, hlp]
            rfl
          rw [hv]
          exact hcp
        exact ((mem_sset_foldDisc sid c _ r hwf).mp hcs).2 hcD
      · -- p is an untouched binding of another session: impossible for c,
        -- whose unique owner is sid's binding
        rw [alookup_sc_foldDisc_ne sid p.1 hpsid] at hlp
        have hporig : p ∈ r.session_connections := by
          have := alookup_mem hlp
          cases p
          exact this
        have hone := owner_unique ⟨hi1, hi2⟩ (hsub c hc) hporig hcp hmem0
          (by simpa using hc)
        exact hpsid (by rw [hone])
  · intro c hc hok
    have hcD : c ∉ (sset r sid).filter (dFail r fails) := by
      intro hm
      rw [((hDsub c).mp hm).2] at hok
      cases hok
    refine ⟨?_, ?_, ?_⟩
    · rw [(send_delivered_evicted r fails sid).1]
      apply List.count_eq_one_of_mem (hnodup0.filter _)
      rw [List.mem_filter]
      refine ⟨hc, ?_⟩
      -- c has a live socket (invariant), and it does not fail
      have hck : c ∈ acKeys r := hsub c hc
      have hsome : (alookup c r.active_connections).isSome :=
        (alookup_isSome_iff c r.active_connections).mpr hck
      rcases hcv : alookup c r.active_connections with _ | ws
      · rw [hcv] at hsome
        simp at hsome
      · have : dFail r fails c = fails ws := by simp [dFail, hcv]
        rw [this] at hok
        simp [dOk, hcv, hok]
    · rw [hreg, mem_acKeys_foldDisc sid c _ r hwf]
      exact ⟨hsub c hc, hcD⟩
    · rw [hreg, mem_sset_foldDisc sid c _ r hwf]
      exact ⟨hc, hcD⟩

theorem claim_C3_fanout_partial_failure_witness :
    Wf (Registry.mk [("c1", 0), ("c2", 1)] [("s1", ["c1", "c2"])]) ∧
    ExactlyOnce (Registry.mk [("c1", 0), ("c2", 1)] [("s1", ["c1", "c2"])]) ∧
    (send_personal_message
        (Registry.mk [("c1", 0), ("c2", 1)] [("s1", ["c1", "c2"])])
        (fun n => n == 1) "s1").ok = true ∧
    "c2" ∉ acKeys (send_personal_message
        (Registry.mk [("c1", 0), ("c2", 1)] [("s1", ["c1", "c2"])])
        (fun n => n == 1) "s1").registry ∧
    (send_personal_message
        (Registry.mk [("c1", 0), ("c2", 1)] [("s1", ["c1", "c2"])])
        (fun n => n == 1) "s1").delivered.count "c1" = 1 ∧
    "c1" ∈ sset (send_personal_message
        (Registry.mk [("c1", 0), ("c2", 1)] [("s1", ["c1", "c2"])])
        (fun n => n == 1) "s1").registry "s1" := by
  have h := claim_C3_fanout_partial_failure
    (Registry.mk [("c1", 0), ("c2", 1)] [("s1", ["c1", "c2"])])
    (fun n => n == 1) "s1"
    ⟨by decide, by decide, by decide, by decide⟩
    ⟨by decide, by decide⟩ (by decide) (by decide)
  refine ⟨⟨by decide, by decide, by decide, by decide⟩, ⟨by decide, by decide⟩,
    h.1, ?_, ?_, ?_⟩
  · exact (h.2.1 "c2" (by decide) (by decide)).1
  · exact (h.2.2 "c1" (by decide) (by decide)).1
  · exact (h.2.2 "c1" (by decide) (by decide)).2.2

end RecipeWS
